import Mathlib

/-!
Verification of the client-side dashboard of `elload_weather_hun_api`.

The JavaScript sources under `src/client/js/` are shallowly embedded:

* ISO timestamp strings are modelled as integers counting minutes (or, for
  `floorToMinutes`, seconds) since an arbitrary epoch, read off the face value
  of the string.  For a fixed timezone offset `z` (the value returned by
  `getTimezoneOffset`, in minutes), `new Date(s)` parses the face value as a
  local wall time, so an instant printed in UTC differs from the wall time by
  `z`.  Under this convention `addMinutesToISODate` is exact integer addition
  on face values (the source subtracts the offset before converting back),
  while `floorToMinutes` shifts its result by the offset.
* JavaScript string comparison on ASCII date strings agrees with the
  lexicographic order on Lean strings, which is used directly.
* Network effects are made explicit: a fetch outcome is passed in as a
  parameter and the number of issued requests is returned in the result.
-/

namespace ElloadWeatherHun

/-- Embedding of `utility.js` `floorToMinutes(timeString, minutes)`.
Timestamps are face-value seconds; `z` is the environment timezone offset in
minutes (`getTimezoneOffset`).  The source parses the string as a local wall
time, floors the minute component of the hour to a multiple of `m`, zeroes the
seconds, and prints the rebuilt local time through `localToUtcString`, which
shifts the face value by the offset. -/
def floorToMinutes (z m t : Int) : Int :=
  3600 * (t / 3600) + 60 * ((((t / 60) % 60) / m) * m) + 60 * z

/-- Embedding of `utility.js` `addMinutesToISODate(date, minutes)` on
face-value minutes: parsing local, adding `minutes - offset` and printing in
UTC cancels the offset, leaving plain addition. -/
def addMinutesToISODate (date minutes : Int) : Int :=
  date + minutes

/-- Controller-domain variant of `floorToMinutes` at timezone offset zero,
with timestamps in whole minutes (the date input carries no seconds). -/
def floorToMinutesCtrl (m t : Int) : Int :=
  60 * (t / 60) + ((t % 60) / m) * m

/-- An HTTP response as observed by `fetchData`: its status code and the
parsed JSON body (kept opaque as a string). -/
structure HttpResponse where
  status : Nat
  body : String
deriving DecidableEq

/-- Embedding of `response.ok`: the status code is in the 2xx range. -/
def respOk (r : HttpResponse) : Bool :=
  decide (200 ≤ r.status) && decide (r.status ≤ 299)

/-- Observable outcome of one `fetchData` call: how many HTTP requests were
issued, which sleeps (in milliseconds) were performed, and either the parsed
body or a thrown error.  The JavaScript error message embeds the URL; the
error value here carries the URL. -/
structure FetchTrace where
  requests : Nat
  sleepsMs : List Nat
  result : Except String String

/-- Embedding of `utility.js` `fetchData(url)`.  The network is a function
from attempt index to response: attempt 0 is the first `fetch`, attempt 1 the
single retry taken after a fixed 3000 ms sleep when attempt 0 returned
status 429.  The final response is checked once with `response.ok`. -/
def fetchData (url : String) (net : Nat → HttpResponse) : FetchTrace :=
  let r0 := net 0
  let rFinal := if r0.status = 429 then net 1 else r0
  let count := if r0.status = 429 then 2 else 1
  let sleeps := if r0.status = 429 then [3000] else []
  if respOk rFinal then ⟨count, sleeps, .ok rFinal.body⟩
  else ⟨count, sleeps, .error url⟩

/-- One entry of the `status` metadata: a validity interval with the sentinel
string `"NaT"` denoting a missing bound. -/
structure StatusItem where
  StartDate : String
  EndDate : String
deriving DecidableEq

/-- String-comparison placeholder initialising the minimum search in
`calcMinMaxDate`. -/
def minDatePlaceholder : String := "9999999999999999999999999999"

/-- String-comparison placeholder initialising the maximum search in
`calcMinMaxDate`. -/
def maxDatePlaceholder : String := "0000000000000000000000000000"

/-- Replace the first space of a character list by `'T'`, the behaviour of
the JavaScript `replace(' ', 'T')` with a plain-string pattern. -/
def replaceFirstSpaceAux : List Char → List Char
  | [] => []
  | c :: rest => if c = ' ' then 'T' :: rest else c :: replaceFirstSpaceAux rest

/-- Replace the first space of a string by `'T'`. -/
def replaceFirstSpace (s : String) : String :=
  ⟨replaceFirstSpaceAux s.data⟩

/-- Decidability of string comparison by direct recursion on the character
lists, so that concrete comparisons reduce inside the kernel (the builtin
instance is defined by well-founded recursion on byte iterators and does
not). -/
instance stringDecLt (s t : String) : Decidable (s < t) :=
  decidable_of_iff (s.toList < t.toList) String.lt_iff_toList_lt.symm

/-- An entry takes part in the min/max computation exactly when neither of
its bounds is the sentinel `"NaT"`. -/
def hasDates (i : StatusItem) : Prop :=
  i.StartDate ≠ "NaT" ∧ i.EndDate ≠ "NaT"

instance (i : StatusItem) : Decidable (hasDates i) := by
  unfold hasDates; infer_instance

/-- Loop of `utility.js` `calcMinMaxDate`: fold over the entries in iteration
order, skipping sentinel entries and keeping the smaller `StartDate` and the
larger `EndDate` by string comparison. -/
def minMaxLoop : List StatusItem → String → String → String × String
  | [], mn, mx => (mn, mx)
  | item :: rest, mn, mx =>
    if item.StartDate = "NaT" ∨ item.EndDate = "NaT" then
      minMaxLoop rest mn mx
    else
      minMaxLoop rest (if item.StartDate < mn then item.StartDate else mn)
        (if mx < item.EndDate then item.EndDate else mx)

/-- Embedding of `utility.js` `calcMinMaxDate(status)`.  The key-indexed
`status.data` object is modelled as the list of its entries in iteration
order.  Both results get their first space replaced by `'T'`. -/
def calcMinMaxDate (data : List StatusItem) : String × String :=
  let r := minMaxLoop data minDatePlaceholder maxDatePlaceholder
  (replaceFirstSpace r.1, replaceFirstSpace r.2)

/-- Scaffolding for reasoning about `minMaxLoop`: its first component only
ever depends on the running minimum. -/
def minLoop : List StatusItem → String → String
  | [], mn => mn
  | item :: rest, mn =>
    if item.StartDate = "NaT" ∨ item.EndDate = "NaT" then
      minLoop rest mn
    else
      minLoop rest (if item.StartDate < mn then item.StartDate else mn)

/-- Scaffolding for reasoning about `minMaxLoop`: its second component only
ever depends on the running maximum. -/
def maxLoop : List StatusItem → String → String
  | [], mx => mx
  | item :: rest, mx =>
    if item.StartDate = "NaT" ∨ item.EndDate = "NaT" then
      maxLoop rest mx
    else
      maxLoop rest (if mx < item.EndDate then item.EndDate else mx)

/-- An RGBA colour stop: one four-element array of `utility.js`
`linearGradient`.  Channels are exact rationals standing for the JavaScript
numbers. -/
structure RGBA where
  r : ℚ
  g : ℚ
  b : ℚ
  a : ℚ
deriving DecidableEq

/-- Embedding of `utility.js` `lerp(pointA, pointB, normalValue)`:
channel-wise `a + (b - a) * t`. -/
def lerp (pointA pointB : RGBA) (normalValue : ℚ) : RGBA :=
  ⟨pointA.r + (pointB.r - pointA.r) * normalValue,
    pointA.g + (pointB.g - pointA.g) * normalValue,
    pointA.b + (pointB.b - pointA.b) * normalValue,
    pointA.a + (pointB.a - pointA.a) * normalValue⟩

/-- JavaScript `x % 1`: the remainder has the sign of the dividend, so it is
`x - trunc x`. -/
def jsRemOne (q : ℚ) : ℚ :=
  if 0 ≤ q then q - (⌊q⌋ : ℚ) else q + (⌊-q⌋ : ℚ)

/-- Default colour returned by out-of-bounds array access (never reached for
stop lists of length at least two). -/
def rgbaZero : RGBA := ⟨0, 0, 0, 0⟩

/-- Embedding of `utility.js` `linearGradient(stops, value)`: stops are split
evenly over `[0,1]`; the bracketing pair is located by flooring
`value / stopLength` and interpolated with the fractional part. -/
def linearGradient (stops : List RGBA) (value : ℚ) : RGBA :=
  let stopLength : ℚ := 1 / ((stops.length : ℚ) - 1)
  let valueRatio := value / stopLength
  let stopIndex : Int := ⌊ valueRatio ⌋
  if (stops.length : Int) - 1 ≤ stopIndex then
    stops.getD (stops.length - 1) rgbaZero
  else if stopIndex < 0 then
    stops.getD 0 rgbaZero
  else
    let stopFraction := jsRemOne valueRatio
    lerp (stops.getD stopIndex.toNat rgbaZero)
      (stops.getD (stopIndex.toNat + 1) rgbaZero) stopFraction

/-- Channel-wise betweenness: each channel of `C` lies between the
corresponding channels of `A` and `B`. -/
def chanBetween (A B C : RGBA) : Prop :=
  (min A.r B.r ≤ C.r ∧ C.r ≤ max A.r B.r) ∧
  (min A.g B.g ≤ C.g ∧ C.g ≤ max A.g B.g) ∧
  (min A.b B.b ≤ C.b ∧ C.b ≤ max A.b B.b) ∧
  (min A.a B.a ≤ C.a ∧ C.a ≤ max A.a B.a)

/-- State of `controllers.js` `PlotController` relevant to the status
lifecycle: the last-seen freshness marker (`null` initially), the cached
status entries, and the computed date range.  Markers are strings taken from
the index object under `lastUpdateKey`. -/
structure PlotCtrl where
  lastUpdate : Option String
  status : Option (List StatusItem)
  minDate : Option String
  maxDate : Option String
deriving DecidableEq

/-- Embedding of `PlotController.updateDateInput`: recompute `_minDate` and
`_maxDate` from the saved status via `calcMinMaxDate`.  A `null` status would
be a runtime error in the source; it is left unchanged here and is never
reached from `updateStatus`. -/
def updateDateInput (s : PlotCtrl) : PlotCtrl :=
  match s.status with
  | some st =>
    let result := calcMinMaxDate st
    { s with minDate := some result.1, maxDate := some result.2 }
  | none => s

/-- Observable outcome of one `PlotController.updateStatus` call: the final
controller state, the returned boolean (or a propagated exception), and the
number of status fetches issued. -/
structure StatusResult where
  ctrl : PlotCtrl
  result : Except Unit Bool
  fetchCount : Nat

/-- Embedding of `PlotController.updateStatus(index)`.  `marker` is
`index[this._lastUpdateKey]`; the status fetch outcome is passed in as
`fetchResult`.  The source writes `_lastUpdate` before awaiting the fetch, so
a failed fetch still leaves the new marker stored. -/
def updateStatus (s : PlotCtrl) (marker : String)
    (fetchResult : Except Unit (List StatusItem)) : StatusResult :=
  if s.lastUpdate = some marker then
    ⟨s, .ok false, 0⟩
  else
    let s1 := { s with lastUpdate := some marker }
    match fetchResult with
    | .error e => ⟨s1, .error e, 1⟩
    | .ok st => ⟨updateDateInput { s1 with status := some st }, .ok true, 1⟩

/-- State of `controllers.js` `LinePlotController` relevant to windowed
fetching, in face-value minutes at timezone offset zero.  `viewRange` is in
hours as in the source. -/
structure LineCtrl where
  viewRange : Int
  stepSize : Int
  minDate : Int
  maxDate : Int
  requestedMinDate : Option Int
  requestedMaxDate : Option Int
deriving DecidableEq

/-- Observable outcome of one `LinePlotController._updateLines` call: the
final controller state, the `_setNavDisabled` calls in order, whether a
network fetch was issued and with which `start_date`/`end_date` bounds, and
the range handed to `_makeLines` (absent when a failed fetch aborted the
call). -/
structure LinesResult where
  ctrl : LineCtrl
  navEvents : List Bool
  fetched : Bool
  request : Option (Int × Int)
  rendered : Option (Int × Int)
deriving DecidableEq

/-- Fetch-and-render tail of `_updateLines` once a re-request was decided:
disable navigation, fetch `[a, b]`, re-enable navigation and render.  There
is no `finally` in the source, so a failed fetch propagates before the
re-enabling call and before `_makeLines`. -/
def doFetchRender (s : LineCtrl) (a b lo hi : Int) (fetchOk : Bool) :
    LinesResult :=
  match fetchOk with
  | true => ⟨s, [true, false], true, some (a, b), some (lo, hi)⟩
  | false => ⟨s, [true], true, some (a, b), none⟩

/-- Embedding of `LinePlotController._updateLines(datetime, force)`.  The
visible range is `datetime ± viewRange` hours; with no cached window the
request is `± 2 × viewRange`, on escape or `force` it is `± 4 × viewRange`
with the upper bound clamped to `_maxDate`, and otherwise the render is
served from cache with no fetch. -/
def updateLines (s : LineCtrl) (datetime : Int) (force fetchOk : Bool) :
    LinesResult :=
  let lo := addMinutesToISODate datetime (-(s.viewRange * 60))
  let hi := addMinutesToISODate datetime (s.viewRange * 60)
  match s.requestedMinDate, s.requestedMaxDate with
  | some rMin, some rMax =>
    if force ∨ lo < rMin ∨ rMax < hi then
      let a := addMinutesToISODate datetime (-(s.viewRange * 4 * 60))
      let b0 := addMinutesToISODate datetime (s.viewRange * 4 * 60)
      let b := if s.maxDate < b0 then s.maxDate else b0
      let s2 := { s with requestedMinDate := some a, requestedMaxDate := some b }
      doFetchRender s2 a b lo hi fetchOk
    else
      ⟨s, [], false, none, some (lo, hi)⟩
  | _, _ =>
    let a := addMinutesToISODate datetime (-(s.viewRange * 2 * 60))
    let b := addMinutesToISODate datetime (s.viewRange * 2 * 60)
    let s2 := { s with requestedMinDate := some a, requestedMaxDate := some b }
    doFetchRender s2 a b lo hi fetchOk

/-- Clamping phase of `LinePlotController.updatePlot(force)`: the input value
is floored to the step size, then pulled back so the upper view edge does not
pass `_maxDate`, then pushed forward if the upper view edge falls below
`_minDate`. -/
def updatePlotRounded (s : LineCtrl) (inputValue : Int) : Int :=
  let rounded0 := floorToMinutesCtrl s.stepSize inputValue
  let rounded1 :=
    if s.maxDate < addMinutesToISODate rounded0 (s.viewRange * 60) then
      addMinutesToISODate s.maxDate (-(s.viewRange * 60))
    else rounded0
  if addMinutesToISODate rounded1 (s.viewRange * 60) < s.minDate then
    addMinutesToISODate s.minDate (s.viewRange * 60)
  else rounded1

/-- Embedding of `LinePlotController.updatePlot(force)`: the clamped value is
written back to the input and handed to `_updateLines`.  Returns the call
outcome together with the written-back input value. -/
def updatePlot (s : LineCtrl) (inputValue : Int) (force fetchOk : Bool) :
    LinesResult × Int :=
  (updateLines s (updatePlotRounded s inputValue) force fetchOk,
    updatePlotRounded s inputValue)

/-- A navigation event on a line plot page: typing a date into the input,
or pressing the forward/backward step buttons, whose handlers floor the
input and shift it by one step before calling `updatePlot`. -/
inductive NavEvent where
  | setDate : Int → NavEvent
  | stepForward : NavEvent
  | stepBackward : NavEvent

/-- Controller state together with the current value of the date input. -/
structure SimState where
  ctrl : LineCtrl
  inputValue : Int

/-- Apply one navigation event: update the input as its handler does, run
`updatePlot` (fetches succeed), and return the new state with the call
outcome. -/
def applyEvent (st : SimState) (e : NavEvent) : SimState × LinesResult :=
  let v :=
    match e with
    | .setDate w => w
    | .stepForward =>
      addMinutesToISODate (floorToMinutesCtrl st.ctrl.stepSize st.inputValue)
        st.ctrl.stepSize
    | .stepBackward =>
      addMinutesToISODate (floorToMinutesCtrl st.ctrl.stepSize st.inputValue)
        (-st.ctrl.stepSize)
  let r := updatePlot st.ctrl v false true
  (⟨r.1.ctrl, r.2⟩, r.1)

/-- Check of the data-gap invariant for one call: the rendered range lies
inside the requested window of the resulting state. -/
def renderInWindow (r : LinesResult) : Bool :=
  match r.rendered, r.ctrl.requestedMinDate, r.ctrl.requestedMaxDate with
  | some (lo, hi), some a, some b => decide (a ≤ lo) && decide (hi ≤ b)
  | _, _, _ => false

/-- Run a sequence of navigation events, returning whether every render along
the way stayed inside the requested window. -/
def simRun (st : SimState) : List NavEvent → Bool
  | [] => true
  | e :: rest =>
    let p := applyEvent st e
    renderInWindow p.2 && simRun p.1 rest

/-- C5: for every URL, `fetchData` issues at most two HTTP requests: on an
HTTP 429 response it waits a fixed 3 seconds and retries exactly once; on any
other non-2xx response, or when the single retry also fails, it throws an
error carrying the URL; on a 2xx response it returns the parsed JSON body. -/
theorem c5_fetch_retry_policy (url : String) (net : Nat → HttpResponse) :
    (fetchData url net).requests ≤ 2 ∧
    ((net 0).status = 429 →
      (fetchData url net).requests = 2 ∧ (fetchData url net).sleepsMs = [3000]) ∧
    ((net 0).status ≠ 429 →
      (fetchData url net).requests = 1 ∧ (fetchData url net).sleepsMs = []) ∧
    ((net 0).status ≠ 429 → respOk (net 0) = false →
      (fetchData url net).result = .error url) ∧
    ((net 0).status = 429 → respOk (net 1) = false →
      (fetchData url net).result = .error url) ∧
    ((net 0).status ≠ 429 → respOk (net 0) = true →
      (fetchData url net).result = .ok (net 0).body) ∧
    ((net 0).status = 429 → respOk (net 1) = true →
      (fetchData url net).result = .ok (net 1).body) := by
  by_cases h : (net 0).status = 429
  · by_cases hok : respOk (net 1) = true
    · simp [fetchData, h, hok]
    · simp [fetchData, h, hok]
  · by_cases hok : respOk (net 0) = true
    · simp [fetchData, h, hok]
    · simp [fetchData, h, hok]

/-- Witness for C5 at a network that answers 429 and then succeeds. -/
theorem c5_fetch_retry_policy_witness :
    (fetchData "u" (fun _ => ⟨429, "b"⟩)).requests = 2 ∧
    (fetchData "u" (fun _ => ⟨429, "b"⟩)).sleepsMs = [3000] :=
  (c5_fetch_retry_policy "u" (fun _ => ⟨429, "b"⟩)).2.1 rfl

/-- C6 as stated fails on the code: `floorToMinutes` parses its argument as
local time but prints the floored result through `localToUtcString`, so in an
environment whose timezone offset is `-60` minutes (Hungary in winter, the
dashboard locale) a second application shifts the result by another hour. -/
theorem c6_counterexample :
    floorToMinutes (-60) 10 (floorToMinutes (-60) 10 0) ≠
      floorToMinutes (-60) 10 0 := by
  decide

/-- C6 (amended): flooring to the step is idempotent in an environment whose
timezone offset is zero, for every timestamp and every positive step size. -/
theorem c6_floor_idempotent_utc (m t : Int) (hm : 1 ≤ m) :
    floorToMinutes 0 m (floorToMinutes 0 m t) = floorToMinutes 0 m t := by
  unfold floorToMinutes
  have hm0 : m ≠ 0 := by omega
  set c := (t / 60) % 60 with hc
  set k := c / m with hkdef
  have hc0 : 0 ≤ c := Int.emod_nonneg _ (by norm_num)
  have hc60 : c < 60 := Int.emod_lt_of_pos _ (by norm_num)
  have hdm : m * k + c % m = c := Int.ediv_add_emod c m
  have hrm : 0 ≤ c % m := Int.emod_nonneg _ hm0
  have hk0 : 0 ≤ k := Int.ediv_nonneg hc0 (by omega)
  have hp0 : 0 ≤ k * m := mul_nonneg hk0 (by omega)
  have hcomm : k * m = m * k := by ring
  have hple : k * m < 60 := by omega
  have hkm : (k * m) / m = k := Int.mul_ediv_cancel k hm0
  have hmid : ((3600 * (t / 3600) + 60 * (k * m) + 60 * 0) / 60) % 60
      = k * m := by
    generalize k * m = p at hp0 hple ⊢
    omega
  rw [hmid, hkm]
  have htop : (3600 * (t / 3600) + 60 * (k * m) + 60 * 0) / 3600
      = t / 3600 := by
    generalize k * m = p at hp0 hple ⊢
    omega
  rw [htop]

/-- Witness for C6 (amended) at step 10 and timestamp 125 seconds. -/
theorem c6_floor_idempotent_utc_witness :
    floorToMinutes 0 10 (floorToMinutes 0 10 125) = floorToMinutes 0 10 125 :=
  c6_floor_idempotent_utc 10 125 (by decide)

lemma minMaxLoop_all_nat : ∀ (l : List StatusItem) (mn mx : String),
    (∀ i ∈ l, i.StartDate = "NaT" ∨ i.EndDate = "NaT") →
    minMaxLoop l mn mx = (mn, mx)
  | [], _, _, _ => rfl
  | i :: rest, mn, mx, h => by
    simp only [minMaxLoop]
    rw [if_pos (h i (List.mem_cons_self i rest))]
    exact minMaxLoop_all_nat rest mn mx fun j hj => h j (List.mem_cons_of_mem i hj)

/-- C10: for a status whose entries all have a `"NaT"` `StartDate` or
`EndDate`, or that has no entries at all, `calcMinMaxDate` returns the
untouched string-comparison placeholders. -/
theorem c10_placeholders (data : List StatusItem)
    (h : ∀ i ∈ data, i.StartDate = "NaT" ∨ i.EndDate = "NaT") :
    calcMinMaxDate data = (minDatePlaceholder, maxDatePlaceholder) := by
  unfold calcMinMaxDate
  rw [minMaxLoop_all_nat data _ _ h]
  rfl

/-- Witness for C10 at the all-`"NaT"` single-entry status. -/
theorem c10_placeholders_witness :
    calcMinMaxDate [⟨"NaT", "NaT"⟩] = (minDatePlaceholder, maxDatePlaceholder) :=
  c10_placeholders [⟨"NaT", "NaT"⟩] (by decide)

lemma updateStatus_eq_seen (s : PlotCtrl) (marker : String)
    (fr : Except Unit (List StatusItem)) (h : s.lastUpdate = some marker) :
    updateStatus s marker fr = ⟨s, .ok false, 0⟩ := by
  unfold updateStatus
  rw [if_pos h]

lemma updateStatus_eq_error (s : PlotCtrl) (marker : String) (e : Unit)
    (h : s.lastUpdate ≠ some marker) :
    updateStatus s marker (.error e)
      = ⟨{ s with lastUpdate := some marker }, .error e, 1⟩ := by
  unfold updateStatus
  rw [if_neg h]

lemma updateStatus_eq_ok (s : PlotCtrl) (marker : String) (st : List StatusItem)
    (h : s.lastUpdate ≠ some marker) :
    updateStatus s marker (.ok st)
      = ⟨updateDateInput { s with lastUpdate := some marker, status := some st },
          .ok true, 1⟩ := by
  unfold updateStatus
  rw [if_neg h]

lemma updateDateInput_some (s : PlotCtrl) (st : List StatusItem)
    (h : s.status = some st) :
    updateDateInput s = { s with minDate := some (calcMinMaxDate st).1, maxDate := some (calcMinMaxDate st).2 } := by
  unfold updateDateInput
  rw [h]

lemma updateStatus_lastUpdate (s : PlotCtrl) (marker : String)
    (fr : Except Unit (List StatusItem)) :
    (updateStatus s marker fr).ctrl.lastUpdate = some marker := by
  by_cases h : s.lastUpdate = some marker
  · rw [updateStatus_eq_seen s marker fr h]
    exact h
  · cases fr with
    | error e => rw [updateStatus_eq_error s marker e h]
    | ok st =>
      rw [updateStatus_eq_ok s marker st h,
        updateDateInput_some _ st rfl]

/-- C4 as stated fails on the code: when the controller has already seen the
marker, two consecutive `updateStatus` calls with that marker perform zero
status fetches in total, not exactly one. -/
theorem c4_counterexample :
    ((updateStatus ⟨some "x", none, none, none⟩ "x" (.ok [])).fetchCount +
      (updateStatus (updateStatus ⟨some "x", none, none, none⟩ "x"
        (.ok [])).ctrl "x" (.ok [])).fetchCount = 0) ∧
    ¬ ((updateStatus ⟨some "x", none, none, none⟩ "x" (.ok [])).fetchCount +
      (updateStatus (updateStatus ⟨some "x", none, none, none⟩ "x"
        (.ok [])).ctrl "x" (.ok [])).fetchCount = 1) := by
  constructor
  · rfl
  · decide

/-- C4 (amended): if the marker equals the last-seen value, `updateStatus`
returns false, performs zero fetches and leaves the state untouched;
otherwise it issues exactly one status fetch and, when the fetch succeeds,
stores the status, recomputes the date range from it and returns true.  Two
consecutive calls with the same marker make at most one status fetch in
total, exactly one when the marker differs from the last-seen value at the
first call; the second call always makes zero fetches. -/
theorem c4_update_status (s : PlotCtrl) (marker : String)
    (fr fr2 : Except Unit (List StatusItem)) :
    (s.lastUpdate = some marker → updateStatus s marker fr = ⟨s, .ok false, 0⟩) ∧
    (s.lastUpdate ≠ some marker →
      (updateStatus s marker fr).fetchCount = 1 ∧
      ∀ st, fr = .ok st →
        (updateStatus s marker fr).result = .ok true ∧
        (updateStatus s marker fr).ctrl.status = some st ∧
        (updateStatus s marker fr).ctrl.minDate = some (calcMinMaxDate st).1 ∧
        (updateStatus s marker fr).ctrl.maxDate = some (calcMinMaxDate st).2) ∧
    (updateStatus (updateStatus s marker fr).ctrl marker fr2).fetchCount = 0 ∧
    (updateStatus s marker fr).fetchCount +
      (updateStatus (updateStatus s marker fr).ctrl marker fr2).fetchCount ≤ 1 ∧
    (s.lastUpdate ≠ some marker →
      (updateStatus s marker fr).fetchCount +
        (updateStatus (updateStatus s marker fr).ctrl marker fr2).fetchCount
        = 1) := by
  have hsecond :
      (updateStatus (updateStatus s marker fr).ctrl marker fr2).fetchCount = 0 := by
    rw [updateStatus_eq_seen _ marker fr2 (updateStatus_lastUpdate s marker fr)]
  have hfirst : s.lastUpdate ≠ some marker →
      (updateStatus s marker fr).fetchCount = 1 := by
    intro h
    cases fr with
    | error e => rw [updateStatus_eq_error s marker e h]
    | ok st => rw [updateStatus_eq_ok s marker st h]
  refine ⟨?_, ?_, hsecond, ?_, ?_⟩
  · intro h
    exact updateStatus_eq_seen s marker fr h
  · intro h
    refine ⟨hfirst h, ?_⟩
    intro st hst
    subst hst
    rw [updateStatus_eq_ok s marker st h, updateDateInput_some _ st rfl]
    exact ⟨rfl, rfl, rfl, rfl⟩
  · rw [hsecond]
    by_cases h : s.lastUpdate = some marker
    · rw [updateStatus_eq_seen s marker fr h]
      simp
    · rw [hfirst h]
  · intro h
    rw [hsecond, hfirst h]

/-- Witness for C4 (amended) at a fresh controller and marker `"m"`. -/
theorem c4_update_status_witness :
    (updateStatus ⟨none, none, none, none⟩ "m" (.ok [])).fetchCount = 1 :=
  ((c4_update_status ⟨none, none, none, none⟩ "m" (.ok []) (.ok [])).2.1
    (by simp)).1

/-- C9: `updateStatus` stores the new freshness marker before awaiting the
status fetch; if the fetch throws, the marker stays stored while status and
date range keep their previous values, and a subsequent call with the same
marker returns false with zero fetches, never retrying. -/
theorem c9_marker_stored_before_fetch (s : PlotCtrl) (marker : String)
    (h : s.lastUpdate ≠ some marker) :
    (updateStatus s marker (.error ())).ctrl
        = { s with lastUpdate := some marker } ∧
    (updateStatus s marker (.error ())).result = .error () ∧
    (updateStatus s marker (.error ())).fetchCount = 1 ∧
    ∀ fr2, updateStatus (updateStatus s marker (.error ())).ctrl marker fr2
        = ⟨(updateStatus s marker (.error ())).ctrl, .ok false, 0⟩ := by
  rw [updateStatus_eq_error s marker () h]
  refine ⟨rfl, rfl, rfl, ?_⟩
  intro fr2
  exact updateStatus_eq_seen _ marker fr2 rfl

/-- Witness for C9 at a fresh controller and marker `"m"`. -/
theorem c9_marker_stored_before_fetch_witness :
    (updateStatus ⟨none, none, none, none⟩ "m" (.error ())).ctrl
      = ⟨some "m", none, none, none⟩ :=
  (c9_marker_stored_before_fetch ⟨none, none, none, none⟩ "m" (by simp)).1

/-- C3 as stated fails on the code: there is no `finally`, so when the data
fetch of a re-request throws, the controller records the single disabling
transition and never re-enables navigation. -/
theorem c3_counterexample :
    (updateLines ⟨1, 10, 0, 100, none, none⟩ 0 false false).navEvents.count true
      = 1 ∧
    (updateLines ⟨1, 10, 0, 100, none, none⟩ 0 false false).navEvents.count false
      = 0 := by
  decide

/-- C3 (amended): when the fetch succeeds, each disabling transition is
paired with exactly one re-enabling transition; when the fetch fails, the
disabling transition is left unpaired and navigation stays disabled, because
the exception propagates before the re-enabling call. -/
theorem c3_nav_reenable (s : LineCtrl) (datetime : Int) (force : Bool) :
    ((updateLines s datetime force true).navEvents = [] ∨
      (updateLines s datetime force true).navEvents = [true, false]) ∧
    ((updateLines s datetime force false).navEvents = [] ∨
      (updateLines s datetime force false).navEvents = [true]) := by
  rcases hmin : s.requestedMinDate with _ | rMin
  · constructor
    · right
      simp [updateLines, hmin, doFetchRender]
    · right
      simp [updateLines, hmin, doFetchRender]
  · rcases hmax : s.requestedMaxDate with _ | rMax
    · constructor
      · right
        simp [updateLines, hmin, hmax, doFetchRender]
      · right
        simp [updateLines, hmin, hmax, doFetchRender]
    · constructor
      · simp only [updateLines, hmin, hmax, doFetchRender]
        split_ifs <;> simp_all
      · simp only [updateLines, hmin, hmax, doFetchRender]
        split_ifs <;> simp_all

/-- C2: for every call to the windowed fetch with center `c` and the current
view range: with no cached window the request spans `± 2 × viewRange`; when
the visible window escapes the cached window or `force` is set, the request
spans `± 4 × viewRange` clamped above to `maxDate`; and no network fetch is
issued when the visible window lies within the cached window and `force` is
false, the render being served from cache. -/
theorem c2_request_window_policy (s : LineCtrl) (c : Int) (force : Bool) :
    ((s.requestedMinDate = none ∨ s.requestedMaxDate = none) →
      (updateLines s c force true).fetched = true ∧
      (updateLines s c force true).request
        = some (c - s.viewRange * 2 * 60, c + s.viewRange * 2 * 60)) ∧
    (∀ rMin rMax, s.requestedMinDate = some rMin →
      s.requestedMaxDate = some rMax →
      (force = true ∨ c - s.viewRange * 60 < rMin ∨ rMax < c + s.viewRange * 60) →
      (updateLines s c force true).fetched = true ∧
      (updateLines s c force true).request
        = some (c - s.viewRange * 4 * 60,
            min (c + s.viewRange * 4 * 60) s.maxDate)) ∧
    (∀ rMin rMax, s.requestedMinDate = some rMin →
      s.requestedMaxDate = some rMax →
      force = false → rMin ≤ c - s.viewRange * 60 →
      c + s.viewRange * 60 ≤ rMax →
      (updateLines s c force true).fetched = false ∧
      (updateLines s c force true).request = none ∧
      (updateLines s c force true).ctrl = s ∧
      (updateLines s c force true).rendered
        = some (c - s.viewRange * 60, c + s.viewRange * 60)) := by
  refine ⟨?_, ?_, ?_⟩
  · intro h
    have harith1 : c + -(s.viewRange * 2 * 60) = c - s.viewRange * 2 * 60 := by
      ring
    rcases hmin : s.requestedMinDate with _ | rMin
    · simp [updateLines, hmin, doFetchRender, addMinutesToISODate, harith1]
    · rcases hmax : s.requestedMaxDate with _ | rMax
      · simp [updateLines, hmin, hmax, doFetchRender, addMinutesToISODate,
          harith1]
      · exfalso
        rcases h with h | h
        · rw [hmin] at h
          exact Option.some_ne_none rMin h
        · rw [hmax] at h
          exact Option.some_ne_none rMax h
  · intro rMin rMax hmin hmax hcond
    have hcond2 : force = true ∨
        addMinutesToISODate c (-(s.viewRange * 60)) < rMin ∨
        rMax < addMinutesToISODate c (s.viewRange * 60) := by
      rcases hcond with h | h | h
      · exact Or.inl h
      · refine Or.inr (Or.inl ?_)
        simp only [addMinutesToISODate]
        omega
      · refine Or.inr (Or.inr ?_)
        simp only [addMinutesToISODate]
        omega
    have harith : c + -(s.viewRange * 4 * 60) = c - s.viewRange * 4 * 60 := by
      ring
    simp only [updateLines, hmin, hmax]
    rw [if_pos hcond2]
    simp [doFetchRender, addMinutesToISODate, harith]
    omega
  · intro rMin rMax hmin hmax hforce hlo hhi
    have hcond : ¬ (force = true ∨
        addMinutesToISODate c (-(s.viewRange * 60)) < rMin ∨
        rMax < addMinutesToISODate c (s.viewRange * 60)) := by
      simp only [addMinutesToISODate]
      push_neg
      refine ⟨by simp [hforce], by omega, by omega⟩
    have harith : c + -(s.viewRange * 60) = c - s.viewRange * 60 := by
      ring
    simp only [updateLines, hmin, hmax]
    rw [if_neg hcond]
    simp [addMinutesToISODate, harith]

/-- Witness for C2 at a controller with no cached window. -/
theorem c2_request_window_policy_witness :
    (updateLines ⟨1, 10, 0, 100, none, none⟩ 0 false true).fetched = true ∧
    (updateLines ⟨1, 10, 0, 100, none, none⟩ 0 false true).request
      = some (0 - 1 * 2 * 60, 0 + 1 * 2 * 60) :=
  (c2_request_window_policy ⟨1, 10, 0, 100, none, none⟩ 0 false).1 (Or.inl rfl)

lemma updatePlotRounded_le (s : LineCtrl) (v : Int)
    (_hvr : 0 ≤ s.viewRange)
    (hwide : s.minDate + 2 * (s.viewRange * 60) ≤ s.maxDate) :
    updatePlotRounded s v + s.viewRange * 60 ≤ s.maxDate := by
  unfold updatePlotRounded
  simp only [addMinutesToISODate]
  generalize floorToMinutesCtrl s.stepSize v = r0
  split_ifs <;> omega

lemma updateLines_window (s : LineCtrl) (dt : Int) (force : Bool)
    (hvr : 0 ≤ s.viewRange) (hhi : dt + s.viewRange * 60 ≤ s.maxDate) :
    ∃ a b, (updateLines s dt force true).ctrl.requestedMinDate = some a ∧
      (updateLines s dt force true).ctrl.requestedMaxDate = some b ∧
      (updateLines s dt force true).rendered
        = some (dt - s.viewRange * 60, dt + s.viewRange * 60) ∧
      a ≤ dt - s.viewRange * 60 ∧ dt + s.viewRange * 60 ≤ b := by
  have hrend : (some (dt + -(s.viewRange * 60), dt + s.viewRange * 60)
      : Option (Int × Int)) = some (dt - s.viewRange * 60, dt + s.viewRange * 60) := by
    simp only [Option.some.injEq, Prod.mk.injEq, and_true]
    omega
  have hge2 : dt + -(s.viewRange * 2 * 60) ≤ dt - s.viewRange * 60 := by omega
  have hle2 : dt + s.viewRange * 60 ≤ dt + s.viewRange * 2 * 60 := by omega
  have hge4 : dt + -(s.viewRange * 4 * 60) ≤ dt - s.viewRange * 60 := by omega
  have hle4 : dt + s.viewRange * 60 ≤
      (if s.maxDate < dt + s.viewRange * 4 * 60 then s.maxDate
        else dt + s.viewRange * 4 * 60) := by
    rcases lt_or_le s.maxDate (dt + s.viewRange * 4 * 60) with h | h
    · rw [if_pos h]
      omega
    · rw [if_neg (not_lt.mpr h)]
      omega
  rcases hmin : s.requestedMinDate with _ | rMin
  · simp only [updateLines, hmin, doFetchRender, addMinutesToISODate]
    exact ⟨dt + -(s.viewRange * 2 * 60), dt + s.viewRange * 2 * 60, rfl, rfl,
      hrend, hge2, hle2⟩
  · rcases hmax : s.requestedMaxDate with _ | rMax
    · simp only [updateLines, hmin, hmax, doFetchRender, addMinutesToISODate]
      exact ⟨dt + -(s.viewRange * 2 * 60), dt + s.viewRange * 2 * 60, rfl, rfl,
        hrend, hge2, hle2⟩
    · by_cases hcond : (force = true ∨
          addMinutesToISODate dt (-(s.viewRange * 60)) < rMin ∨
          rMax < addMinutesToISODate dt (s.viewRange * 60))
      · simp only [updateLines, hmin, hmax, doFetchRender]
        rw [if_pos hcond]
        simp only [addMinutesToISODate]
        exact ⟨dt + -(s.viewRange * 4 * 60),
          if s.maxDate < dt + s.viewRange * 4 * 60 then s.maxDate
            else dt + s.viewRange * 4 * 60, rfl, rfl, hrend, hge4, hle4⟩
      · simp only [updateLines, hmin, hmax]
        rw [if_neg hcond]
        simp only [addMinutesToISODate] at hcond
        push_neg at hcond
        obtain ⟨hcf, hclo, hchi⟩ := hcond
        have hge0 : rMin ≤ dt - s.viewRange * 60 := by
          rw [sub_eq_add_neg]
          exact hclo
        have hle0 : dt + s.viewRange * 60 ≤ rMax := hchi
        exact ⟨rMin, rMax, hmin, hmax, hrend, hge0, hle0⟩

/-- C1 as stated fails on the code.  With `minDate = 0`, `maxDate = 100`
minutes, a one-hour view range and a ten-minute step, the following valid
navigation sequence — type the maximal allowed date into the input, then hold
the backward button for twelve steps — makes the lower clamp of `updatePlot`
jump the centre to `minDate + viewRange`, whose upper view edge `minDate +
2 × viewRange` exceeds `maxDate`; the triggered re-request is clamped above
to `maxDate`, so the subsequent render iterates timestamps beyond the
requested window. -/
theorem c1_counterexample :
    simRun ⟨⟨1, 10, 0, 100, none, none⟩, 0⟩
      [NavEvent.setDate 100, .stepBackward, .stepBackward, .stepBackward,
       .stepBackward, .stepBackward, .stepBackward, .stepBackward,
       .stepBackward, .stepBackward, .stepBackward, .stepBackward,
       .stepBackward] = false := by
  decide

/-- C1 (amended): provided the view range is nonnegative and the allowed
date range is at least as wide as the full visible window, so that
`minDate + 2 × viewRange ≤ maxDate`, every `updatePlot` call — hence every
step of every navigation sequence, each of which goes through `updatePlot` —
renders a range contained in the requested window of the most recent fetch:
every timestamp iterated by the render step lies within
`[requestedMinDate, requestedMaxDate]`. -/
theorem c1_window_contains_render (s : LineCtrl) (inputValue : Int)
    (force : Bool) (hvr : 0 ≤ s.viewRange)
    (hwide : s.minDate + 2 * (s.viewRange * 60) ≤ s.maxDate) :
    ∃ a b lo hi,
      (updatePlot s inputValue force true).1.ctrl.requestedMinDate = some a ∧
      (updatePlot s inputValue force true).1.ctrl.requestedMaxDate = some b ∧
      (updatePlot s inputValue force true).1.rendered = some (lo, hi) ∧
      ∀ i : Int, lo ≤ i → i ≤ hi → a ≤ i ∧ i ≤ b := by
  obtain ⟨a, b, h1, h2, h3, h4, h5⟩ :=
    updateLines_window s (updatePlotRounded s inputValue) force hvr
      (updatePlotRounded_le s inputValue hvr hwide)
  exact ⟨a, b, _, _, h1, h2, h3,
    fun i hlo hhi => ⟨le_trans h4 hlo, le_trans hhi h5⟩⟩

/-- Witness for C1 (amended) at a controller whose date range spans 10000
minutes with a one-hour view range. -/
theorem c1_window_contains_render_witness :
    ∃ a b lo hi,
      (updatePlot ⟨1, 10, 0, 10000, none, none⟩ 5000 false true).1.ctrl.requestedMinDate
        = some a ∧
      (updatePlot ⟨1, 10, 0, 10000, none, none⟩ 5000 false true).1.ctrl.requestedMaxDate
        = some b ∧
      (updatePlot ⟨1, 10, 0, 10000, none, none⟩ 5000 false true).1.rendered
        = some (lo, hi) ∧
      ∀ i : Int, lo ≤ i → i ≤ hi → a ≤ i ∧ i ≤ b :=
  c1_window_contains_render ⟨1, 10, 0, 10000, none, none⟩ 5000 false
    (by decide) (by decide)

lemma lerp_channel_between (x y f : ℚ) (h0 : 0 ≤ f) (h1 : f ≤ 1) :
    min x y ≤ x + (y - x) * f ∧ x + (y - x) * f ≤ max x y := by
  rcases le_total x y with hxy | hxy
  · rw [min_eq_left hxy, max_eq_right hxy]
    constructor <;> nlinarith
  · rw [min_eq_right hxy, max_eq_left hxy]
    constructor <;> nlinarith

lemma lerp_between (A B : RGBA) (f : ℚ) (h0 : 0 ≤ f) (h1 : f ≤ 1) :
    chanBetween A B (lerp A B f) :=
  ⟨lerp_channel_between A.r B.r f h0 h1, lerp_channel_between A.g B.g f h0 h1,
    lerp_channel_between A.b B.b f h0 h1, lerp_channel_between A.a B.a f h0 h1⟩

lemma lerp_zero (A B : RGBA) : lerp A B 0 = A := by
  simp [lerp]

lemma ratio_div_eq (stops : List RGBA) (_h2 : 2 ≤ stops.length) (t : ℚ) :
    t / (1 / ((stops.length : ℚ) - 1)) = t * ((stops.length : ℚ) - 1) := by
  rw [div_div_eq_mul_div, div_one, mul_comm]

lemma length_sub_one_pos (stops : List RGBA) (h2 : 2 ≤ stops.length) :
    (0 : ℚ) < (stops.length : ℚ) - 1 := by
  have h2q : (2 : ℚ) ≤ (stops.length : ℚ) := by exact_mod_cast h2
  linarith

lemma linearGradient_ge_one (stops : List RGBA) (h2 : 2 ≤ stops.length)
    (t : ℚ) (ht : 1 ≤ t) :
    linearGradient stops t = stops.getD (stops.length - 1) rgbaZero := by
  have hpos := length_sub_one_pos stops h2
  have hfloor : (stops.length : Int) - 1 ≤ ⌊t / (1 / ((stops.length : ℚ) - 1))⌋ := by
    rw [ratio_div_eq stops h2 t]
    refine Int.le_floor.mpr ?_
    push_cast
    nlinarith
  simp only [linearGradient]
  rw [if_pos hfloor]

lemma linearGradient_le_zero (stops : List RGBA) (h2 : 2 ≤ stops.length)
    (t : ℚ) (ht : t < 0) :
    linearGradient stops t = stops.getD 0 rgbaZero := by
  have hpos := length_sub_one_pos stops h2
  have hRneg : t / (1 / ((stops.length : ℚ) - 1)) < 0 := by
    rw [ratio_div_eq stops h2 t]
    exact mul_neg_of_neg_of_pos ht hpos
  have hfloor : ⌊t / (1 / ((stops.length : ℚ) - 1))⌋ < 0 := by
    refine Int.floor_lt.mpr ?_
    push_cast
    exact hRneg
  have hn1 : (0 : Int) < (stops.length : Int) - 1 := by omega
  simp only [linearGradient]
  rw [if_neg (not_le.mpr (lt_trans hfloor hn1)), if_pos hfloor]

lemma linearGradient_at_zero (stops : List RGBA) (h2 : 2 ≤ stops.length) :
    linearGradient stops 0 = stops.getD 0 rgbaZero := by
  have hzero : (0 : ℚ) / (1 / ((stops.length : ℚ) - 1)) = 0 := zero_div _
  have hn1 : (0 : Int) < (stops.length : Int) - 1 := by omega
  simp only [linearGradient]
  rw [hzero]
  rw [if_neg (by simpa using not_le.mpr hn1), if_neg (by simp)]
  simp only [jsRemOne, Int.floor_zero]
  norm_num [lerp_zero]

lemma linearGradient_between (stops : List RGBA) (h2 : 2 ≤ stops.length)
    (t : ℚ) (h0 : 0 ≤ t) (h1 : t ≤ 1) :
    ∃ i : ℕ, i + 1 < stops.length ∧
      chanBetween (stops.getD i rgbaZero) (stops.getD (i + 1) rgbaZero)
        (linearGradient stops t) := by
  have hpos := length_sub_one_pos stops h2
  rcases eq_or_lt_of_le h1 with ht1 | ht1
  · subst ht1
    rw [linearGradient_ge_one stops h2 1 le_rfl]
    refine ⟨stops.length - 2, by omega, ?_⟩
    have hidx : stops.length - 2 + 1 = stops.length - 1 := by omega
    rw [hidx]
    exact ⟨⟨min_le_right _ _, le_max_right _ _⟩,
      ⟨min_le_right _ _, le_max_right _ _⟩,
      ⟨min_le_right _ _, le_max_right _ _⟩,
      ⟨min_le_right _ _, le_max_right _ _⟩⟩
  · have hR0 : 0 ≤ t * ((stops.length : ℚ) - 1) :=
      mul_nonneg h0 (le_of_lt hpos)
    have hRlt : t * ((stops.length : ℚ) - 1) < (stops.length : ℚ) - 1 := by
      nlinarith
    have hfloor0 : 0 ≤ ⌊t * ((stops.length : ℚ) - 1)⌋ := Int.floor_nonneg.mpr hR0
    have hfloorlt : ⌊t * ((stops.length : ℚ) - 1)⌋ < (stops.length : Int) - 1 := by
      refine Int.floor_lt.mpr ?_
      push_cast
      exact hRlt
    have hfr0 : 0 ≤ t * ((stops.length : ℚ) - 1)
        - (⌊t * ((stops.length : ℚ) - 1)⌋ : ℚ) := by
      have := Int.floor_le (t * ((stops.length : ℚ) - 1))
      linarith
    have hfr1 : t * ((stops.length : ℚ) - 1)
        - (⌊t * ((stops.length : ℚ) - 1)⌋ : ℚ) ≤ 1 := by
      have := Int.lt_floor_add_one (t * ((stops.length : ℚ) - 1))
      linarith
    refine ⟨(⌊t * ((stops.length : ℚ) - 1)⌋).toNat, by omega, ?_⟩
    simp only [linearGradient]
    rw [ratio_div_eq stops h2 t]
    rw [if_neg (not_le.mpr hfloorlt), if_neg (not_lt.mpr hfloor0)]
    rw [jsRemOne, if_pos hR0]
    exact lerp_between _ _ _ hfr0 hfr1

/-- C7: for every list of at least two RGBA stops, `linearGradient` maps
`t ∈ [0,1]` to a colour whose channels lie between those of a bracketing
pair of adjacent stops, sends 0 to the first stop and 1 to the last, and
clamps out-of-range `t` to the nearest endpoint stop; in particular for
stops `[[0,0,0,0],[255,255,255,1]]` and `t = 1/2` it returns
`[127.5, 127.5, 127.5, 0.5]`. -/
theorem c7_linear_gradient (stops : List RGBA) (h2 : 2 ≤ stops.length) :
    (∀ t : ℚ, 0 ≤ t → t ≤ 1 → ∃ i : ℕ, i + 1 < stops.length ∧
      chanBetween (stops.getD i rgbaZero) (stops.getD (i + 1) rgbaZero)
        (linearGradient stops t)) ∧
    linearGradient stops 0 = stops.getD 0 rgbaZero ∧
    linearGradient stops 1 = stops.getD (stops.length - 1) rgbaZero ∧
    (∀ t : ℚ, t < 0 → linearGradient stops t = stops.getD 0 rgbaZero) ∧
    (∀ t : ℚ, 1 < t →
      linearGradient stops t = stops.getD (stops.length - 1) rgbaZero) ∧
    linearGradient [⟨0, 0, 0, 0⟩, ⟨255, 255, 255, 1⟩] (1 / 2)
      = ⟨255 / 2, 255 / 2, 255 / 2, 1 / 2⟩ := by
  refine ⟨linearGradient_between stops h2,
    linearGradient_at_zero stops h2,
    linearGradient_ge_one stops h2 1 le_rfl,
    fun t ht => linearGradient_le_zero stops h2 t ht,
    fun t ht => linearGradient_ge_one stops h2 t (le_of_lt ht), ?_⟩
  norm_num [linearGradient, lerp, jsRemOne, rgbaZero]

/-- Witness for C7 at the two-stop black-to-white gradient. -/
theorem c7_linear_gradient_witness :
    linearGradient [⟨0, 0, 0, 0⟩, ⟨255, 255, 255, 1⟩] 0 = ⟨0, 0, 0, 0⟩ :=
  (c7_linear_gradient [⟨0, 0, 0, 0⟩, ⟨255, 255, 255, 1⟩] (by decide)).2.1

lemma minMaxLoop_eq : ∀ (l : List StatusItem) (mn mx : String),
    minMaxLoop l mn mx = (minLoop l mn, maxLoop l mx)
  | [], _, _ => rfl
  | i :: rest, mn, mx => by
    simp only [minMaxLoop, minLoop, maxLoop]
    split_ifs <;> exact minMaxLoop_eq rest _ _

lemma minLoop_le : ∀ (l : List StatusItem) (mn : String), minLoop l mn ≤ mn
  | [], mn => le_refl mn
  | i :: rest, mn => by
    simp only [minLoop]
    split_ifs with h hlt
    · exact minLoop_le rest mn
    · exact le_trans (minLoop_le rest _) (le_of_lt hlt)
    · exact minLoop_le rest mn

lemma minLoop_le_mem : ∀ (l : List StatusItem) (mn : String) (j : StatusItem),
    j ∈ l → hasDates j → minLoop l mn ≤ j.StartDate
  | [], _, j, hj, _ => absurd hj (List.not_mem_nil j)
  | i :: rest, mn, j, hj, hd => by
    simp only [minLoop]
    rcases List.mem_cons.mp hj with rfl | hjr
    · rw [if_neg (not_or.mpr ⟨hd.1, hd.2⟩)]
      split_ifs with hlt
      · exact minLoop_le rest _
      · exact le_trans (minLoop_le rest mn) (le_of_not_lt hlt)
    · split_ifs with h hlt
      · exact minLoop_le_mem rest mn j hjr hd
      · exact minLoop_le_mem rest _ j hjr hd
      · exact minLoop_le_mem rest mn j hjr hd

lemma minLoop_eq_or : ∀ (l : List StatusItem) (mn : String),
    minLoop l mn = mn ∨
      ∃ j ∈ l, hasDates j ∧ minLoop l mn = j.StartDate
  | [], mn => Or.inl rfl
  | i :: rest, mn => by
    simp only [minLoop]
    split_ifs with h hlt
    · rcases minLoop_eq_or rest mn with h1 | ⟨j, hj, hd, he⟩
      · exact Or.inl h1
      · exact Or.inr ⟨j, List.mem_cons_of_mem i hj, hd, he⟩
    · have hdi : hasDates i := ⟨fun he => h (Or.inl he), fun he => h (Or.inr he)⟩
      rcases minLoop_eq_or rest i.StartDate with h1 | ⟨j, hj, hd, he⟩
      · exact Or.inr ⟨i, List.mem_cons_self i rest, hdi, h1⟩
      · exact Or.inr ⟨j, List.mem_cons_of_mem i hj, hd, he⟩
    · rcases minLoop_eq_or rest mn with h1 | ⟨j, hj, hd, he⟩
      · exact Or.inl h1
      · exact Or.inr ⟨j, List.mem_cons_of_mem i hj, hd, he⟩

lemma maxLoop_ge : ∀ (l : List StatusItem) (mx : String), mx ≤ maxLoop l mx
  | [], mx => le_refl mx
  | i :: rest, mx => by
    simp only [maxLoop]
    split_ifs with h hlt
    · exact maxLoop_ge rest mx
    · exact le_trans (le_of_lt hlt) (maxLoop_ge rest _)
    · exact maxLoop_ge rest mx

lemma maxLoop_ge_mem : ∀ (l : List StatusItem) (mx : String) (j : StatusItem),
    j ∈ l → hasDates j → j.EndDate ≤ maxLoop l mx
  | [], _, j, hj, _ => absurd hj (List.not_mem_nil j)
  | i :: rest, mx, j, hj, hd => by
    simp only [maxLoop]
    rcases List.mem_cons.mp hj with rfl | hjr
    · rw [if_neg (not_or.mpr ⟨hd.1, hd.2⟩)]
      split_ifs with hlt
      · exact maxLoop_ge rest _
      · exact le_trans (le_of_not_lt hlt) (maxLoop_ge rest mx)
    · split_ifs with h hlt
      · exact maxLoop_ge_mem rest mx j hjr hd
      · exact maxLoop_ge_mem rest _ j hjr hd
      · exact maxLoop_ge_mem rest mx j hjr hd

lemma maxLoop_eq_or : ∀ (l : List StatusItem) (mx : String),
    maxLoop l mx = mx ∨
      ∃ j ∈ l, hasDates j ∧ maxLoop l mx = j.EndDate
  | [], mx => Or.inl rfl
  | i :: rest, mx => by
    simp only [maxLoop]
    split_ifs with h hlt
    · rcases maxLoop_eq_or rest mx with h1 | ⟨j, hj, hd, he⟩
      · exact Or.inl h1
      · exact Or.inr ⟨j, List.mem_cons_of_mem i hj, hd, he⟩
    · have hdi : hasDates i := ⟨fun he => h (Or.inl he), fun he => h (Or.inr he)⟩
      rcases maxLoop_eq_or rest i.EndDate with h1 | ⟨j, hj, hd, he⟩
      · exact Or.inr ⟨i, List.mem_cons_self i rest, hdi, h1⟩
      · exact Or.inr ⟨j, List.mem_cons_of_mem i hj, hd, he⟩
    · rcases maxLoop_eq_or rest mx with h1 | ⟨j, hj, hd, he⟩
      · exact Or.inl h1
      · exact Or.inr ⟨j, List.mem_cons_of_mem i hj, hd, he⟩

/-- C8: `calcMinMaxDate` computes the earliest `StartDate` and the latest
`EndDate` over the status entries, skipping entries with a `"NaT"` bound, and
returns them with the first space replaced by `'T'`; the hypotheses pin the
dates strictly inside the string-comparison placeholders, which holds for
every digit-initial date string.  In particular the metadata scenario with
one valid entry and one `"NaT"` entry yields
`("2024-01-01T00:00:00", "2024-01-02T00:00:00")`. -/
theorem c8_calc_min_max (data : List StatusItem)
    (hne : ∃ i ∈ data, hasDates i)
    (hlo : ∀ i ∈ data, hasDates i → i.StartDate < minDatePlaceholder)
    (hhi : ∀ i ∈ data, hasDates i → maxDatePlaceholder < i.EndDate) :
    (∃ i ∈ data, hasDates i ∧
      (calcMinMaxDate data).1 = replaceFirstSpace i.StartDate ∧
      ∀ j ∈ data, hasDates j → i.StartDate ≤ j.StartDate) ∧
    (∃ i ∈ data, hasDates i ∧
      (calcMinMaxDate data).2 = replaceFirstSpace i.EndDate ∧
      ∀ j ∈ data, hasDates j → j.EndDate ≤ i.EndDate) ∧
    calcMinMaxDate [⟨"2024-01-01 00:00:00", "2024-01-02 00:00:00"⟩,
      ⟨"NaT", "NaT"⟩] = ("2024-01-01T00:00:00", "2024-01-02T00:00:00") := by
  obtain ⟨i0, hi0, hd0⟩ := hne
  have hcalc : calcMinMaxDate data
      = (replaceFirstSpace (minLoop data minDatePlaceholder),
          replaceFirstSpace (maxLoop data maxDatePlaceholder)) := by
    unfold calcMinMaxDate
    rw [minMaxLoop_eq]
  refine ⟨?_, ?_, ?_⟩
  · rcases minLoop_eq_or data minDatePlaceholder with h1 | ⟨j, hj, hd, he⟩
    · exfalso
      have hle := minLoop_le_mem data minDatePlaceholder i0 hi0 hd0
      rw [h1] at hle
      exact absurd (lt_of_le_of_lt hle (hlo i0 hi0 hd0)) (lt_irrefl _)
    · refine ⟨j, hj, hd, ?_, ?_⟩
      · rw [hcalc, he]
      · intro k hk hdk
        have hle := minLoop_le_mem data minDatePlaceholder k hk hdk
        rw [he] at hle
        exact hle
  · rcases maxLoop_eq_or data maxDatePlaceholder with h1 | ⟨j, hj, hd, he⟩
    · exfalso
      have hge := maxLoop_ge_mem data maxDatePlaceholder i0 hi0 hd0
      rw [h1] at hge
      exact absurd (lt_of_lt_of_le (hhi i0 hi0 hd0) hge) (lt_irrefl _)
    · refine ⟨j, hj, hd, ?_, ?_⟩
      · rw [hcalc, he]
      · intro k hk hdk
        have hge := maxLoop_ge_mem data maxDatePlaceholder k hk hdk
        rw [he] at hge
        exact hge
  · decide

/-- Witness for C8 at the spec scenario metadata. -/
theorem c8_calc_min_max_witness :
    calcMinMaxDate [⟨"2024-01-01 00:00:00", "2024-01-02 00:00:00"⟩,
      ⟨"NaT", "NaT"⟩] = ("2024-01-01T00:00:00", "2024-01-02T00:00:00") :=
  (c8_calc_min_max [⟨"2024-01-01 00:00:00", "2024-01-02 00:00:00"⟩,
      ⟨"NaT", "NaT"⟩] (by decide) (by decide) (by decide)).2.2

end ElloadWeatherHun

